import Mathlib

/-!
# Verification of `lib/backends/sdc/networks.js`

Shallow embedding of the network-resolution and fabric-network-provisioning
logic of the sdc-docker networks backend, together with proofs of the
specified properties.

The embedding mirrors the JavaScript source function by function:

* the free-VLAN-id scan inside `findFreeFabricVlanId` (`createNetwork`
  pipeline), including the default `Array.prototype.sort()` behaviour of
  comparing numbers by their decimal string form;
* the VLAN-creation retry loop of `createFabricVlan`;
* the full `createNetwork` pipeline with its rollback stage;
* the local gate of the `byDockerId` search strategy of
  `findNetworkOrPoolByNameOrId`;
* the preference-order reduction of `findNetworkOrPoolByNameOrId`;
* the `vasync.tryEach` strategy chain of `getNetworksOrPools`.

Remote NAPI calls are modelled by oracle environments: a record field per
remote operation holding the outcome that operation's callback would deliver.
-/

namespace SdcNetworks

/-! ## JavaScript `Array.prototype.sort()` on numbers

`findFreeFabricVlanId` sorts the taken VLAN ids with
`vlans.map(function (vlan) { return vlan.vlan_id; }).sort()`.  With no
comparator, ECMAScript's `Array.prototype.sort` compares elements by the
UTF-16 code units of their `String(...)` forms, so the numbers are ordered
lexicographically by their decimal strings (e.g. `1023` sorts before `2`).
-/

/-- Decimal digit characters of `n`, most significant first, exactly the
characters of JavaScript `String(n)` for a natural number.  Fuel-based so the
definition is structural (`n + 1` fuel always suffices). -/
def decCharsAux : Nat → Nat → List Char → List Char
  | 0, _, acc => acc
  | fuel + 1, n, acc =>
    if n < 10 then Char.ofNat (48 + n % 10) :: acc
    else decCharsAux fuel (n / 10) (Char.ofNat (48 + n % 10) :: acc)

/-- The decimal string of `n`, as a character list. -/
def decChars (n : Nat) : List Char := decCharsAux (n + 1) n []

/-- JavaScript string `<=` (UTF-16 code unit order) on character lists.  This
is the order the default sort comparator induces on the decimal strings. -/
def strLe : List Char → List Char → Bool
  | [], _ => true
  | _ :: _, [] => false
  | a :: as, b :: bs => if a = b then strLe as bs else decide (a < b)

/-- The default-sort comparison on numbers: compare decimal strings. -/
def decLe (a b : Nat) : Bool := strLe (decChars a) (decChars b)

/-- Insert into a list sorted by `decLe` (insertion step of a stable sort). -/
def insertLex (x : Nat) : List Nat → List Nat
  | [] => [x]
  | y :: ys => if decLe x y then x :: y :: ys else y :: insertLex x ys

/-- Model of JavaScript `takenVlanIds.sort()` (no comparator): sort the
numbers by the lexicographic order of their decimal strings.  Equal keys are
equal numbers, so any correct sort for this total preorder produces the same
list; we use insertion sort. -/
def jsSort (l : List Nat) : List Nat := l.foldr insertLex []

theorem insertLex_length (x : Nat) (l : List Nat) :
    (insertLex x l).length = l.length + 1 := by
  induction l with
  | nil => rfl
  | cons y ys ih =>
    unfold insertLex
    by_cases h : decLe x y = true
    · simp [h]
    · simp [h, ih]

theorem jsSort_length (l : List Nat) : (jsSort l).length = l.length := by
  induction l with
  | nil => rfl
  | cons x xs ih =>
    show (insertLex x (jsSort xs)).length = xs.length + 1
    rw [insertLex_length, ih]

/-! ## The free-VLAN-id scan (`findFreeFabricVlanId`, networks.js 659-686)

```js
var freeVlanIds = [];
var id = -1;
var takenIdx = 0;
while (id < 1024 && freeVlanIds.length < 10) {
    id += 1;
    if (id === 1) { continue; }
    if (id === takenVlanIds[takenIdx]) {
        takenIdx += 1;
        while (id === takenVlanIds[takenIdx]) { takenIdx += 1; }
        continue;
    }
    freeVlanIds.push(id);
}
```

The guard `id < 1024` is tested on the value *before* `id += 1`, so the loop
body runs for ids 0 through 1024 inclusive (1025 iterations at most).  We
model the loop with `id` holding the post-increment value about to be
processed and `fuel = 1025 - id` bounding the remaining iterations; `taken`
is the unconsumed suffix of the sorted taken list (the `takenIdx` pointer)
and `acc` accumulates the pushed candidates in reverse.  The
`assert.ok(takenIdx < 1024)` inside the duplicate-skip loop cannot fire in
the states reachable here (the scan only runs when the taken list has fewer
than 1024 entries), so it is not modelled. -/
def scanGo : Nat → Nat → List Nat → List Nat → List Nat
  | _, 0, _, acc => acc.reverse
  | id, fuel + 1, taken, acc =>
    if 10 ≤ acc.length then acc.reverse
    else if id = 1 then scanGo (id + 1) fuel taken acc
    else
      match taken with
      | [] => scanGo (id + 1) fuel [] (id :: acc)
      | t :: ts =>
        if id = t then scanGo (id + 1) fuel (ts.dropWhile (fun x => x = id)) acc
        else scanGo (id + 1) fuel (t :: ts) (id :: acc)

/-- The scan applied to an already-sorted taken list. -/
def vlanScan (sortedTaken : List Nat) : List Nat := scanGo 0 1025 sortedTaken []

/-- `ctx.freeVlanIds` as computed by `findFreeFabricVlanId` from the raw
`vlan_id`s returned by `napi.listFabricVLANs` (sort, then scan). -/
def freeVlanIdsOf (vlanIds : List Nat) : List Nat := vlanScan (jsSort vlanIds)

/-! ### Structural lemmas about the scan -/

theorem dropWhile_length_le (p : Nat → Bool) :
    ∀ l : List Nat, (l.dropWhile p).length ≤ l.length := by
  intro l
  induction l with
  | nil => simp
  | cons x xs ih =>
    rw [List.dropWhile_cons]
    by_cases h : p x = true
    · simp only [h, if_true]
      simpa using Nat.le_succ_of_le ih
    · simp [h]

theorem scanGo_ne_nil_of_acc (fuel : Nat) :
    ∀ (id : Nat) (taken acc : List Nat), acc ≠ [] →
      scanGo id fuel taken acc ≠ [] := by
  induction fuel with
  | zero =>
    intro id taken acc h
    simpa [scanGo] using h
  | succ fuel ih =>
    intro id taken acc h
    unfold scanGo
    by_cases hlen : 10 ≤ acc.length
    · simpa [hlen] using h
    · simp only [hlen, if_false]
      by_cases hid : id = 1
      · simpa [hid] using ih (id + 1) taken acc h
      · simp only [hid, if_false]
        match taken with
        | [] => exact ih (id + 1) [] (id :: acc) (by simp)
        | t :: ts =>
          by_cases ht : id = t
          · simpa [ht] using ih (id + 1) (ts.dropWhile (fun x => x = id)) acc h
          · simpa [ht] using ih (id + 1) (t :: ts) (id :: acc) (by simp)

theorem scanGo_ne_nil_of_big_id (fuel : Nat) :
    ∀ (taken : List Nat) (id : Nat), taken.length + 1 ≤ fuel → 2 ≤ id →
      scanGo id fuel taken [] ≠ [] := by
  induction fuel with
  | zero => intro taken id h; omega
  | succ fuel ih =>
    intro taken id hfuel hid
    unfold scanGo
    have h1 : ¬ (10 ≤ ([] : List Nat).length) := by simp
    have h2 : id ≠ 1 := by omega
    simp only [h1, if_false, h2]
    match taken with
    | [] => exact scanGo_ne_nil_of_acc fuel (id + 1) [] [id] (by simp)
    | t :: ts =>
      by_cases ht : id = t
      · simp only [ht, if_true]
        refine ih (ts.dropWhile (fun x => x = t)) (t + 1) ?_ (by omega)
        have := dropWhile_length_le (fun x => decide (x = t)) ts
        simp only [List.length_cons] at hfuel
        omega
      · simp only [ht, if_false]
        exact scanGo_ne_nil_of_acc fuel (id + 1) (t :: ts) [id] (by simp)

theorem scanGo_ne_nil (fuel : Nat) :
    ∀ (taken : List Nat) (id : Nat), taken.length + 2 ≤ fuel →
      scanGo id fuel taken [] ≠ [] := by
  induction fuel with
  | zero => intro taken id h; omega
  | succ fuel ih =>
    intro taken id hfuel
    unfold scanGo
    have h1 : ¬ (10 ≤ ([] : List Nat).length) := by simp
    simp only [h1, if_false]
    by_cases hid : id = 1
    · simp only [hid, if_true]
      exact scanGo_ne_nil_of_big_id fuel taken 2 (by omega) (by omega)
    · simp only [hid, if_false]
      match taken with
      | [] => exact scanGo_ne_nil_of_acc fuel (id + 1) [] [id] (by simp)
      | t :: ts =>
        by_cases ht : id = t
        · simp only [ht, if_true]
          refine ih (ts.dropWhile (fun x => x = t)) (t + 1) ?_
          have := dropWhile_length_le (fun x => decide (x = t)) ts
          simp only [List.length_cons] at hfuel
          omega
        · simp only [ht, if_false]
          exact scanGo_ne_nil_of_acc fuel (id + 1) (t :: ts) [id] (by simp)

theorem scanGo_mem_range (fuel : Nat) :
    ∀ (id : Nat) (taken acc : List Nat) (x : Nat),
      x ∈ scanGo id fuel taken acc → x ∈ acc ∨ (id ≤ x ∧ x < id + fuel) := by
  induction fuel with
  | zero =>
    intro id taken acc x hx
    simp only [scanGo, List.mem_reverse] at hx
    exact Or.inl hx
  | succ fuel ih =>
    intro id taken acc x hx
    unfold scanGo at hx
    by_cases hlen : 10 ≤ acc.length
    · simp only [hlen, if_true, List.mem_reverse] at hx
      exact Or.inl hx
    · simp only [hlen, if_false] at hx
      by_cases hid : id = 1
      · simp only [hid, if_true] at hx
        rcases ih (id + 1) taken acc x (by simpa [hid] using hx) with h | h
        · exact Or.inl h
        · exact Or.inr ⟨by omega, by omega⟩
      · simp only [hid, if_false] at hx
        match taken with
        | [] =>
          rcases ih (id + 1) [] (id :: acc) x hx with h | h
          · rcases List.mem_cons.mp h with rfl | h
            · exact Or.inr ⟨le_refl _, by omega⟩
            · exact Or.inl h
          · exact Or.inr ⟨by omega, by omega⟩
        | t :: ts =>
          by_cases ht : id = t
          · simp only [ht, if_true] at hx
            rcases ih (t + 1) (ts.dropWhile (fun x => x = t)) acc x (by simpa [ht] using hx) with h | h
            · exact Or.inl h
            · subst ht; exact Or.inr ⟨by omega, by omega⟩
          · simp only [ht, if_false] at hx
            rcases ih (id + 1) (t :: ts) (id :: acc) x hx with h | h
            · rcases List.mem_cons.mp h with rfl | h
              · exact Or.inr ⟨le_refl _, by omega⟩
              · exact Or.inl h
            · exact Or.inr ⟨by omega, by omega⟩

theorem scanGo_mem_ne_one (fuel : Nat) :
    ∀ (id : Nat) (taken acc : List Nat) (x : Nat),
      x ∈ scanGo id fuel taken acc → x ∈ acc ∨ x ≠ 1 := by
  induction fuel with
  | zero =>
    intro id taken acc x hx
    simp only [scanGo, List.mem_reverse] at hx
    exact Or.inl hx
  | succ fuel ih =>
    intro id taken acc x hx
    unfold scanGo at hx
    by_cases hlen : 10 ≤ acc.length
    · simp only [hlen, if_true, List.mem_reverse] at hx
      exact Or.inl hx
    · simp only [hlen, if_false] at hx
      by_cases hid : id = 1
      · simp only [hid, if_true] at hx
        exact ih (id + 1) taken acc x (by simpa [hid] using hx)
      · simp only [hid, if_false] at hx
        match taken with
        | [] =>
          rcases ih (id + 1) [] (id :: acc) x hx with h | h
          · rcases List.mem_cons.mp h with rfl | h
            · exact Or.inr hid
            · exact Or.inl h
          · exact Or.inr h
        | t :: ts =>
          by_cases ht : id = t
          · simp only [ht, if_true] at hx
            exact ih (t + 1) (ts.dropWhile (fun x => x = t)) acc x (by simpa [ht] using hx)
          · simp only [ht, if_false] at hx
            rcases ih (id + 1) (t :: ts) (id :: acc) x hx with h | h
            · rcases List.mem_cons.mp h with rfl | h
              · exact Or.inr hid
              · exact Or.inl h
            · exact Or.inr h

theorem scanGo_pairwise (fuel : Nat) :
    ∀ (id : Nat) (taken acc : List Nat),
      (∀ a ∈ acc, a < id) → acc.Pairwise (· > ·) →
      (scanGo id fuel taken acc).Pairwise (· < ·) := by
  induction fuel with
  | zero =>
    intro id taken acc hlt hpw
    simpa [scanGo, List.pairwise_reverse] using hpw
  | succ fuel ih =>
    intro id taken acc hlt hpw
    unfold scanGo
    by_cases hlen : 10 ≤ acc.length
    · simpa [hlen, List.pairwise_reverse] using hpw
    · simp only [hlen, if_false]
      by_cases hid : id = 1
      · simp only [hid, if_true]
        exact ih (1 + 1) taken acc (by intro a ha; have := hlt a ha; omega) hpw
      · simp only [hid, if_false]
        match taken with
        | [] =>
          refine ih (id + 1) [] (id :: acc) ?_ ?_
          · intro a ha
            rcases List.mem_cons.mp ha with rfl | ha
            · omega
            · have := hlt a ha; omega
          · exact List.pairwise_cons.mpr ⟨hlt, hpw⟩
        | t :: ts =>
          by_cases ht : id = t
          · simp only [ht, if_true]
            exact ih (t + 1) (ts.dropWhile (fun x => x = t)) acc
              (by intro a ha; have := hlt a ha; omega) hpw
          · simp only [ht, if_false]
            refine ih (id + 1) (t :: ts) (id :: acc) ?_ ?_
            · intro a ha
              rcases List.mem_cons.mp ha with rfl | ha
              · omega
              · have := hlt a ha; omega
            · exact List.pairwise_cons.mpr ⟨hlt, hpw⟩

theorem scanGo_length_le (fuel : Nat) :
    ∀ (id : Nat) (taken acc : List Nat), acc.length ≤ 10 →
      (scanGo id fuel taken acc).length ≤ 10 := by
  induction fuel with
  | zero =>
    intro id taken acc h
    simpa [scanGo] using h
  | succ fuel ih =>
    intro id taken acc h
    unfold scanGo
    by_cases hlen : 10 ≤ acc.length
    · simpa [hlen] using h
    · simp only [hlen, if_false]
      by_cases hid : id = 1
      · simpa [hid] using ih (id + 1) taken acc h
      · simp only [hid, if_false]
        match taken with
        | [] => exact ih (id + 1) [] (id :: acc) (by simp; omega)
        | t :: ts =>
          by_cases ht : id = t
          · simpa [ht] using ih (id + 1) (ts.dropWhile (fun x => x = t)) acc h
          · simpa [ht] using ih (id + 1) (t :: ts) (id :: acc) (by simp; omega)

/-! ### The candidates stay within 0..1023

The scan can emit id 1024 only if fewer than 10 candidates were collected
over ids 0..1023, i.e. only after at least 1014 pointer-skips.  Each skipped
id equals, at skip time, the head of the remaining suffix of the sorted
taken list, so the skipped ids — numerically increasing, because ids are
scanned in ascending order — also appear in the list's (string) sort order.
A potential function that is strictly monotone along such doubly-increasing
chains and has range inside 0..999 bounds the number of skips by 1000, so
the scan always collects its 10 candidates before reaching id 1024. -/

theorem strLe_total : ∀ a b : List Char, strLe a b = true ∨ strLe b a = true := by
  intro a
  induction a with
  | nil => intro b; left; rfl
  | cons x xs ih =>
    intro b
    cases b with
    | nil => right; rfl
    | cons y ys =>
      by_cases hxy : x = y
      · rcases ih ys with h | h
        · left; simp [strLe, hxy, h]
        · right
          have hyx : y = x := hxy.symm
          simp [strLe, hyx, h]
      · rcases lt_trichotomy x y with hlt | heq | hgt
        · left; simp [strLe, hxy, hlt]
        · exact absurd heq hxy
        · right
          have hyx : ¬ y = x := fun h => hxy h.symm
          simp [strLe, hyx, hgt]

theorem strLe_trans :
    ∀ a b c : List Char, strLe a b = true → strLe b c = true →
      strLe a c = true := by
  intro a
  induction a with
  | nil => intro b c _ _; rfl
  | cons x xs ih =>
    intro b c hab hbc
    cases b with
    | nil => simp [strLe] at hab
    | cons y ys =>
      cases c with
      | nil => simp [strLe] at hbc
      | cons z zs =>
        by_cases hxy : x = y <;> by_cases hyz : y = z
        · have hxz : x = z := hxy.trans hyz
          simp only [strLe, hxy, if_true, hyz, hxz] at hab hbc ⊢
          exact ih ys zs hab hbc
        · have hlt : y < z := by
            simp only [strLe, hyz, if_false, decide_eq_true_eq] at hbc
            exact hbc
          have hxz : x < z := hxy ▸ hlt
          have hxzne : ¬ x = z := ne_of_lt hxz
          simp [strLe, hxzne, hxz]
        · have hlt : x < y := by
            simp only [strLe, hxy, if_false, decide_eq_true_eq] at hab
            exact hab
          have hxz : x < z := hyz ▸ hlt
          have hxzne : ¬ x = z := ne_of_lt hxz
          simp [strLe, hxzne, hxz]
        · have hlt1 : x < y := by
            simp only [strLe, hxy, if_false, decide_eq_true_eq] at hab
            exact hab
          have hlt2 : y < z := by
            simp only [strLe, hyz, if_false, decide_eq_true_eq] at hbc
            exact hbc
          have hxz : x < z := lt_trans hlt1 hlt2
          have hxzne : ¬ x = z := ne_of_lt hxz
          simp [strLe, hxzne, hxz]

theorem decLe_total (a b : Nat) : decLe a b = true ∨ decLe b a = true :=
  strLe_total (decChars a) (decChars b)

theorem decLe_trans (a b c : Nat) (hab : decLe a b = true)
    (hbc : decLe b c = true) : decLe a c = true :=
  strLe_trans (decChars a) (decChars b) (decChars c) hab hbc

theorem mem_insertLex (x : Nat) :
    ∀ (l : List Nat) (z : Nat), z ∈ insertLex x l → z = x ∨ z ∈ l := by
  intro l
  induction l with
  | nil =>
    intro z hz
    simp only [insertLex, List.mem_singleton] at hz
    exact Or.inl hz
  | cons y ys ih =>
    intro z hz
    unfold insertLex at hz
    by_cases h : decLe x y = true
    · rw [if_pos h] at hz
      simp only [List.mem_cons] at hz
      rcases hz with rfl | rfl | hz
      · exact Or.inl rfl
      · exact Or.inr (List.mem_cons_self _ _)
      · exact Or.inr (List.mem_cons_of_mem _ hz)
    · rw [if_neg h] at hz
      simp only [List.mem_cons] at hz
      rcases hz with rfl | hz
      · exact Or.inr (List.mem_cons_self _ _)
      · rcases ih z hz with h' | h'
        · exact Or.inl h'
        · exact Or.inr (List.mem_cons_of_mem _ h')

theorem pairwise_insertLex (x : Nat) :
    ∀ l : List Nat, l.Pairwise (fun a b => decLe a b = true) →
      (insertLex x l).Pairwise (fun a b => decLe a b = true) := by
  intro l
  induction l with
  | nil => intro _; simp [insertLex]
  | cons y ys ih =>
    intro hsort
    rcases List.pairwise_cons.mp hsort with ⟨hhead, htail⟩
    unfold insertLex
    by_cases h : decLe x y = true
    · rw [if_pos h]
      refine List.pairwise_cons.mpr ⟨?_, hsort⟩
      intro z hz
      rcases List.mem_cons.mp hz with rfl | hz
      · exact h
      · exact decLe_trans x y z h (hhead z hz)
    · rw [if_neg h]
      refine List.pairwise_cons.mpr ⟨?_, ih htail⟩
      intro z hz
      rcases mem_insertLex x ys z hz with h' | h'
      · rw [h']
        rcases decLe_total x y with h'' | h''
        · exact absurd h'' h
        · exact h''
      · exact hhead z h'

theorem jsSort_sorted (l : List Nat) :
    (jsSort l).Pairwise (fun a b => decLe a b = true) := by
  induction l with
  | nil => exact List.Pairwise.nil
  | cons a l ih => exact pairwise_insertLex a (jsSort l) ih

/-- Potential along doubly-increasing chains: identity below 1000, and
`110 + offset` for the 24 four-digit values 1000..1023 — whose decimal
strings start with "10", forcing any string-smaller value below 110. -/
def phi (x : Nat) : Nat := if x ≤ 999 then x else 110 + (x - 1000)

set_option maxRecDepth 8192 in
set_option maxHeartbeats 4000000 in
theorem decLe_cross_false :
    ∀ i < 890, ∀ j < 24, decLe (110 + i) (1000 + j) = false := by decide

theorem phi_le_999 (p : Nat) (hp : p ≤ 1023) : phi p ≤ 999 := by
  unfold phi
  by_cases h : p ≤ 999
  · rw [if_pos h]
    exact h
  · rw [if_neg h]
    omega

theorem phi_lt_phi (p t : Nat) (hpt : p < t) (ht : t ≤ 1023)
    (hlex : decLe p t = true) : phi p < phi t := by
  unfold phi
  by_cases h1 : t ≤ 999
  · rw [if_pos (by omega : p ≤ 999), if_pos h1]
    exact hpt
  · by_cases h2 : p ≤ 999
    · by_cases h3 : p ≤ 109
      · rw [if_pos h2, if_neg h1]
        omega
      · exfalso
        have := decLe_cross_false (p - 110) (by omega) (t - 1000) (by omega)
        rw [show 110 + (p - 110) = p by omega,
          show 1000 + (t - 1000) = t by omega, hlex] at this
        exact Bool.noConfusion this
    · rw [if_neg h2, if_neg h1]
      omega

/-- Length of the longest strictly increasing subsequence of `l` with all
values in `[lo, 1023]` — an upper bound on the pointer-skips the scan can
still perform once its next id is `lo`. -/
def chainCap (lo : Nat) : List Nat → Nat
  | [] => 0
  | t :: ts =>
    if lo ≤ t ∧ t ≤ 1023 then
      max (1 + chainCap (t + 1) ts) (chainCap lo ts)
    else chainCap lo ts

theorem chainCap_tail_le (lo t : Nat) (ts : List Nat) :
    chainCap lo ts ≤ chainCap lo (t :: ts) := by
  rw [chainCap]
  by_cases hc : lo ≤ t ∧ t ≤ 1023
  · rw [if_pos hc]
    exact le_max_right _ _
  · rw [if_neg hc]

theorem chainCap_mono_lo (lo lo' : Nat) (h : lo ≤ lo') :
    ∀ l : List Nat, chainCap lo' l ≤ chainCap lo l := by
  intro l
  induction l with
  | nil => exact le_refl _
  | cons t ts ih =>
    rw [chainCap, chainCap]
    by_cases hc' : lo' ≤ t ∧ t ≤ 1023
    · rw [if_pos hc', if_pos ⟨le_trans h hc'.1, hc'.2⟩]
      exact max_le_max (le_refl _) ih
    · rw [if_neg hc']
      by_cases hc : lo ≤ t ∧ t ≤ 1023
      · rw [if_pos hc]
        exact le_trans ih (le_max_right _ _)
      · rw [if_neg hc]
        exact ih

theorem chainCap_dropWhile_le (p : Nat → Bool) (lo : Nat) :
    ∀ l : List Nat, chainCap lo (l.dropWhile p) ≤ chainCap lo l := by
  intro l
  induction l with
  | nil => exact le_refl _
  | cons t ts ih =>
    rw [List.dropWhile_cons]
    by_cases h : p t = true
    · rw [if_pos h]
      exact le_trans ih (chainCap_tail_le lo t ts)
    · rw [if_neg h]

theorem chainCap_le_floor :
    ∀ L : List Nat, L.Pairwise (fun a b => decLe a b = true) →
      ∀ p lo : Nat, p < lo → p ≤ 1023 → (∀ x ∈ L, decLe p x = true) →
        chainCap lo L ≤ 999 - phi p := by
  intro L
  induction L with
  | nil =>
    intro _ p lo _ hp _
    have := phi_le_999 p hp
    rw [chainCap]
    omega
  | cons t ts ih =>
    intro hsort p lo hlt hp hall
    rcases List.pairwise_cons.mp hsort with ⟨hhead, htail⟩
    rw [chainCap]
    by_cases hc : lo ≤ t ∧ t ≤ 1023
    · rw [if_pos hc]
      have h1 : chainCap (t + 1) ts ≤ 999 - phi t :=
        ih htail t (t + 1) (Nat.lt_succ_self t) hc.2 hhead
      have h2 : chainCap lo ts ≤ 999 - phi p :=
        ih htail p lo hlt hp (fun x hx => hall x (List.mem_cons_of_mem _ hx))
      have hphi : phi p < phi t :=
        phi_lt_phi p t (lt_of_lt_of_le hlt hc.1) hc.2
          (hall t (List.mem_cons_self _ _))
      have ht999 := phi_le_999 t hc.2
      refine max_le ?_ h2
      omega
    · rw [if_neg hc]
      exact ih htail p lo hlt hp (fun x hx => hall x (List.mem_cons_of_mem _ hx))

theorem chainCap_le_1000 :
    ∀ L : List Nat, L.Pairwise (fun a b => decLe a b = true) →
      ∀ lo : Nat, chainCap lo L ≤ 1000 := by
  intro L
  induction L with
  | nil =>
    intro _ lo
    rw [chainCap]
    omega
  | cons t ts ih =>
    intro hsort lo
    rcases List.pairwise_cons.mp hsort with ⟨hhead, htail⟩
    rw [chainCap]
    by_cases hc : lo ≤ t ∧ t ≤ 1023
    · rw [if_pos hc]
      have h1 : chainCap (t + 1) ts ≤ 999 - phi t :=
        chainCap_le_floor ts htail t (t + 1) (Nat.lt_succ_self t) hc.2 hhead
      have h2 : chainCap lo ts ≤ 1000 := ih htail lo
      refine max_le ?_ h2
      omega
    · rw [if_neg hc]
      exact ih htail lo

/-- The skip-budget invariant: if the candidates still owed (10 minus the
accumulator) cannot be denied by the remaining ids — at most `chainCap`
pointer-skips plus possibly the reserved id 1 among the `1024 - id` ids
before 1024 — then the scan never reaches id 1024 with fewer than 10
candidates, so 1024 is never emitted. -/
theorem scanGo_budget :
    ∀ (fuel id : Nat) (taken acc : List Nat),
      id + fuel = 1025 → 1024 ∉ acc →
      10 + chainCap id taken + (if id ≤ 1 then 1 else 0)
        ≤ acc.length + (1024 - id) →
      1024 ∉ scanGo id fuel taken acc := by
  intro fuel
  induction fuel with
  | zero =>
    intro id taken acc _ hacc _
    simpa [scanGo, List.mem_reverse] using hacc
  | succ fuel ih =>
    intro id taken acc hif hacc hbud
    unfold scanGo
    by_cases hlen : 10 ≤ acc.length
    · rw [if_pos hlen]
      simpa [List.mem_reverse] using hacc
    · rw [if_neg hlen]
      have hlen9 : acc.length ≤ 9 := by omega
      by_cases hid1 : id = 1
      · rw [if_pos hid1]
        subst hid1
        refine ih (1 + 1) taken acc (by omega) hacc ?_
        have hmono := chainCap_mono_lo 1 (1 + 1) (by omega) taken
        rw [if_pos (by omega : (1 : Nat) ≤ 1)] at hbud
        rw [if_neg (by omega : ¬ (1 + 1 : Nat) ≤ 1)]
        omega
      · rw [if_neg hid1]
        cases taken with
        | nil =>
          have hid_le : id ≤ 1023 := by
            by_cases h : id ≤ 1
            · omega
            · rw [if_neg h] at hbud
              omega
          refine ih (id + 1) [] (id :: acc) (by omega) ?_ ?_
          · simp only [List.mem_cons]
            push_neg
            exact ⟨by omega, hacc⟩
          · have h0 : chainCap (id + 1) ([] : List Nat) = 0 := rfl
            have h0' : chainCap id ([] : List Nat) = 0 := rfl
            simp only [List.length_cons]
            by_cases h : id ≤ 1
            · rw [if_pos (by omega : id + 1 ≤ 1)]
              rw [if_pos h] at hbud
              omega
            · rw [if_neg (by omega : ¬ id + 1 ≤ 1)]
              rw [if_neg h] at hbud
              omega
        | cons t ts =>
          show 1024 ∉ (if id = t then
              scanGo (id + 1) fuel (ts.dropWhile (fun x => x = id)) acc
            else scanGo (id + 1) fuel (t :: ts) (id :: acc))
          by_cases hit : id = t
          · rw [if_pos hit]
            subst hit
            have hid_le : id ≤ 1023 := by
              by_cases h : id ≤ 1
              · omega
              · rw [if_neg h] at hbud
                omega
            refine ih (id + 1) (ts.dropWhile (fun x => x = id)) acc
              (by omega) hacc ?_
            have hcap : 1 + chainCap (id + 1) ts ≤ chainCap id (id :: ts) := by
              rw [chainCap, if_pos ⟨le_refl id, hid_le⟩]
              exact le_max_left _ _
            have hdrop :=
              chainCap_dropWhile_le (fun x => decide (x = id)) (id + 1) ts
            by_cases h : id ≤ 1
            · rw [if_pos (by omega : id + 1 ≤ 1)]
              rw [if_pos h] at hbud
              omega
            · rw [if_neg (by omega : ¬ id + 1 ≤ 1)]
              rw [if_neg h] at hbud
              omega
          · rw [if_neg hit]
            have hid_le : id ≤ 1023 := by
              by_cases h : id ≤ 1
              · omega
              · rw [if_neg h] at hbud
                omega
            refine ih (id + 1) (t :: ts) (id :: acc) (by omega) ?_ ?_
            · simp only [List.mem_cons]
              push_neg
              exact ⟨by omega, hacc⟩
            · have hmono := chainCap_mono_lo id (id + 1) (by omega) (t :: ts)
              simp only [List.length_cons]
              by_cases h : id ≤ 1
              · rw [if_pos (by omega : id + 1 ≤ 1)]
                rw [if_pos h] at hbud
                omega
              · rw [if_neg (by omega : ¬ id + 1 ≤ 1)]
                rw [if_neg h] at hbud
                omega

/-- Candidate 1024 is never emitted: the initial budget asks for
`chainCap 0 (jsSort vlanIds) ≤ 1013`, and no doubly-increasing chain
exceeds 1000. -/
theorem freeVlanIds_not_1024 (vlanIds : List Nat) :
    1024 ∉ freeVlanIdsOf vlanIds := by
  have h1 := chainCap_le_1000 (jsSort vlanIds) (jsSort_sorted vlanIds) 0
  refine scanGo_budget 1025 0 (jsSort vlanIds) [] rfl (by simp) ?_
  rw [if_pos (by omega : (0 : Nat) ≤ 1)]
  simp only [List.length_nil]
  omega

/-! ### Claim theorems about the free-VLAN-id scan -/

/-- C3 (counterexample): with taken VLAN ids exactly `[0, 2, 3, 1023]`, the
free-candidate list computed by `findFreeFabricVlanId` is *not*
`[1, 4, 5, 6, 7, 8, 9, 10, 11, 12]` as the claim states: id 1 is explicitly
reserved by the code, and the default string sort puts `1023` before `2` and
`3` so the taken ids 2 and 3 are not skipped. -/
theorem freeVlanIds_taken_0_2_3_1023_ne_claimed :
    freeVlanIdsOf [0, 2, 3, 1023] ≠ [1, 4, 5, 6, 7, 8, 9, 10, 11, 12] := by
  decide

/-- C3 (amended): with taken VLAN ids exactly `[0, 2, 3, 1023]`, the computed
free-candidate list is exactly `[2, 3, 4, 5, 6, 7, 8, 9, 10, 11]`.
`Array.prototype.sort()` without a comparator orders the numbers by their
decimal strings (`[0, 1023, 2, 3]`), so the ascending pointer walk skips only
id 0, the reserved id 1 is skipped, and the taken ids 2 and 3 are collected
as "free". -/
theorem freeVlanIds_taken_0_2_3_1023 :
    freeVlanIdsOf [0, 2, 3, 1023] = [2, 3, 4, 5, 6, 7, 8, 9, 10, 11] := by
  decide

/-- C4 (failing input, the code contradicting the claim's membership
conjunct): with taken ids `[0, 2, 3, 1023]` — all within 0..1023 — the
computed candidate list contains 2 and 3, both of which are taken.  The
string sort of the taken list (`[0, 1023, 2, 3]`) defeats the ascending
skip walk. -/
theorem freeVlanIds_contain_taken_ids :
    jsSort [0, 2, 3, 1023] = [0, 1023, 2, 3] ∧
    2 ∈ freeVlanIdsOf [0, 2, 3, 1023] ∧ 2 ∈ [0, 2, 3, 1023] ∧
    3 ∈ freeVlanIdsOf [0, 2, 3, 1023] ∧ 3 ∈ [0, 2, 3, 1023] := by
  decide

/-- C4 (amended): for every list of taken VLAN ids (each taken id in
0..1023), every candidate id in the computed free list lies in the range
0..1023, is never the reserved id 1, the list is strictly increasing, and
it has at most 10 elements.  The claim's remaining conjunct — candidates
never being taken ids — is false, see the counterexample.  The range bound
holds although the loop also scans id 1024: emitting it would require at
least 1014 pointer-skips, and skipped ids form a chain increasing both
numerically and in decimal-string order, which `freeVlanIds_not_1024`
bounds by 1000.  (The proof does not in fact need the in-range hypothesis
on the taken ids; it is kept to mirror the claim.) -/
theorem freeVlanIds_invariants (vlanIds : List Nat)
    (_htaken : ∀ t ∈ vlanIds, t ≤ 1023) :
    (∀ x ∈ freeVlanIdsOf vlanIds, x ≤ 1023 ∧ x ≠ 1) ∧
    (freeVlanIdsOf vlanIds).Pairwise (· < ·) ∧
    (freeVlanIdsOf vlanIds).length ≤ 10 := by
  refine ⟨?_, ?_, ?_⟩
  · intro x hx
    refine ⟨?_, ?_⟩
    · have h1 : x ≤ 1024 := by
        rcases scanGo_mem_range 1025 0 (jsSort vlanIds) [] x hx with h | h
        · simp at h
        · omega
      have h2 : x ≠ 1024 := by
        intro he
        exact freeVlanIds_not_1024 vlanIds (he ▸ hx)
      omega
    · rcases scanGo_mem_ne_one 1025 0 (jsSort vlanIds) [] x hx with h | h
      · simp at h
      · exact h
  · exact scanGo_pairwise 1025 0 (jsSort vlanIds) [] (by simp) (by simp)
  · exact scanGo_length_le 1025 0 (jsSort vlanIds) [] (by simp)

/-- Witness for C4's amended theorem at a concrete taken list. -/
theorem freeVlanIds_invariants_witness :
    (∀ t ∈ ([0, 2, 3, 1023] : List Nat), t ≤ 1023) ∧
    ((∀ x ∈ freeVlanIdsOf [0, 2, 3, 1023], x ≤ 1023 ∧ x ≠ 1) ∧
     (freeVlanIdsOf [0, 2, 3, 1023]).Pairwise (· < ·) ∧
     (freeVlanIdsOf [0, 2, 3, 1023]).length ≤ 10) :=
  ⟨by decide, freeVlanIds_invariants [0, 2, 3, 1023] (by decide)⟩

/-- C10: for every account VLAN list that passes the exhaustion guard of
`findFreeFabricVlanId` (fewer than 1024 entries), the free-candidate scan
yields a non-empty list, so `assert.ok(ctx.freeVlanIds.length > 0)` at the
start of `createFabricVlan` never fails: the scan visits 1025 ids (0..1024),
of which only one is reserved, and each skip consumes at least one entry of
the (at most 1023-element) taken list. -/
theorem freeVlanIds_nonempty (vlanIds : List Nat)
    (h : vlanIds.length ≤ 1023) : freeVlanIdsOf vlanIds ≠ [] := by
  refine scanGo_ne_nil 1025 (jsSort vlanIds) 0 ?_
  rw [jsSort_length]
  omega

/-- Witness for C10 at a concrete account list. -/
theorem freeVlanIds_nonempty_witness :
    ([0, 2, 3, 1023] : List Nat).length ≤ 1023 ∧
      freeVlanIdsOf [0, 2, 3, 1023] ≠ [] :=
  ⟨by decide, freeVlanIds_nonempty [0, 2, 3, 1023] (by decide)⟩

/-! ## The `createNetwork` pipeline (networks.js 572-831)

`createNetwork` validates the optional `triton.network.vlan_id` label, then
runs a four-stage `vasync.pipeline`
(`lookupExistingFabricVlan`, `findFreeFabricVlanId`, `createFabricVlan`,
`createFabricNetwork`); on any stage error it runs a rollback
`vasync.parallel` (delete the created fabric network, delete the fabric VLAN
if this call created it) and calls back with the original pipeline error.
Remote calls are modelled by an oracle environment. -/

/-- A NAPI error as observed by this file: a status code and a message (the
VLAN retry loop branches on `err.message`). -/
structure NapiErr where
  statusCode : Nat
  message : String
deriving DecidableEq, Repr

/-- The error kinds `createNetwork` produces (from `lib/errors`):
`ValidationError`, `napiErrorWrap(err, msg)` and `DockerError(msg)`. -/
inductive DockerErr
  | validation (msg : String)
  | napiWrap (msg : String) (e : NapiErr)
  | docker (msg : String)
deriving DecidableEq, Repr

/-- One remote NAPI call issued by the pipeline or its rollback stage. -/
inductive Call
  | getVlan (id : Nat)
  | listVlans
  | createVlan (id : Nat)
  | createNet (vlanId : Nat)
  | deleteNet (vlanId : Nat) (uuid : String)
  | deleteVlan (id : Nat)
deriving DecidableEq, Repr

def Call.isDeleteVlan : Call → Bool
  | .deleteVlan _ => true
  | _ => false

def Call.isDeleteNet : Call → Bool
  | .deleteNet _ _ => true
  | _ => false

def Call.isCreateVlan : Call → Bool
  | .createVlan _ => true
  | _ => false

/-- Oracle outcomes for the remote calls of `createNetwork`.
`listFabricVLANs` yields the raw `vlan_id`s of the account's VLANs.
`parseCidr` models `ipaddr.createCIDR(ipamConfig.IPRange || subnet)`
(success, or a thrown exception caught as a `ValidationError`); the derived
`provision_start_ip`/`provision_end_ip` strings affect no claim and are not
modelled further.  `createFabricNetwork` yields the created network's uuid. -/
structure CreateNetEnv where
  getFabricVLAN : Except NapiErr Unit
  listFabricVLANs : Except NapiErr (List Nat)
  createFabricVLAN : Nat → Except NapiErr Unit
  parseCidr : Except Unit Unit
  createFabricNetwork : Except NapiErr String
  deleteFabricNetwork : Except NapiErr Unit
  deleteFabricVLAN : Except NapiErr Unit

/-- Pipeline context (`ctx` and `createdFabricVlan` in the source) plus the
trace of remote calls issued so far. -/
structure PipeSt where
  fabricVlanId : Option Nat := none
  fabricNetwork : Option String := none
  createdFabricVlan : Bool := false
  calls : List Call := []
deriving Repr

/-- The VLAN-creation retry loop of `createFabricVlan` (networks.js 703-736):
`vasync.forEachPipeline` over the free candidate ids, in list order.  A
successful creation stops the loop (`nextId(true)` early abort) with that id;
a "VLAN ID is already in use" error advances to the next candidate; any other
error aborts with the wrapped error; exhausting all candidates yields the
"No available VLAN" error.  Also returns the candidate ids for which
`napi.createFabricVLAN` was actually called, in call order. -/
def attemptVlans (create : Nat → Except NapiErr Unit) :
    List Nat → Except DockerErr Nat × List Nat
  | [] => (.error (.docker "No available VLAN for network creation"), [])
  | id :: rest =>
    match create id with
    | .ok _ => (.ok id, [id])
    | .error e =>
      if e.message = "VLAN ID is already in use" then
        let r := attemptVlans create rest
        (r.1, id :: r.2)
      else (.error (.napiWrap "Unable to create fabric vlan" e), [id])

/-- The `createFabricNetwork` stage (networks.js 739-775): parse the subnet
or IP range (a throw is a `ValidationError`, issued before any remote call),
then issue the network-creation call scoped to `ctx.fabricVlanId`. -/
def createNetStage (env : CreateNetEnv) (st : PipeSt) :
    Option DockerErr × PipeSt :=
  match env.parseCidr with
  | .error _ => (some (.validation "Invalid Subnet or IPRange"), st)
  | .ok _ =>
    let vid := st.fabricVlanId.getD 0
    match env.createFabricNetwork with
    | .error e => (some (.napiWrap "Unable to create network" e),
        { st with calls := st.calls ++ [.createNet vid] })
    | .ok uuid => (none,
        { st with fabricNetwork := some uuid,
                  calls := st.calls ++ [.createNet vid] })

/-- The four-stage `vasync.pipeline` of `createNetwork` (networks.js
607-777), for a request whose `triton.network.vlan_id` label already passed
the up-front validation; `vlanLabel` is the parsed numeric label value when
the label is present (the string-to-number validation itself precedes the
pipeline and is outside every claim).  Returns the first stage error, if
any, and the final pipeline state. -/
def runPipeline (vlanLabel : Option Nat) (env : CreateNetEnv) :
    Option DockerErr × PipeSt :=
  match vlanLabel with
  | some vlanId =>
    -- lookupExistingFabricVlan; on success the next two stages are skipped
    -- because ctx.fabricVlan is set.
    match env.getFabricVLAN with
    | .error e => (some (.napiWrap "Unable to find fabric vlan" e),
        { calls := [.getVlan vlanId] })
    | .ok _ =>
        createNetStage env
          { fabricVlanId := some vlanId, calls := [.getVlan vlanId] }
  | none =>
    -- findFreeFabricVlanId
    match env.listFabricVLANs with
    | .error e => (some (.napiWrap "Unable to list fabric vlans" e),
        { calls := [.listVlans] })
    | .ok vlans =>
      if 1024 ≤ vlans.length then
        (some (.docker "No free vlan ids"), { calls := [.listVlans] })
      else
        -- createFabricVlan retry loop over the computed candidates
        match attemptVlans env.createFabricVLAN (freeVlanIdsOf vlans) with
        | (.ok id, attempted) =>
            createNetStage env
              { fabricVlanId := some id, createdFabricVlan := true,
                calls := .listVlans :: attempted.map .createVlan }
        | (.error e, attempted) =>
            (some e,
              { calls := .listVlans :: attempted.map .createVlan })

/-- Modelled from the spec: `utils.networkUuidToDockerId` is not part of this
repository slice; per the file's header comment and spec §4.1
(`toPlatformId`), the docker id of a network is its uuid with the dashes
removed, concatenated with itself. -/
def networkUuidToDockerId (uuid : String) : String :=
  let s := uuid.toList.filter (fun c => c ≠ '-')
  String.mk (s ++ s)

/-- Everything `createNetwork` produces: the value handed to the caller's
callback, the full remote-call trace (pipeline then rollback), the
`createdFabricVlan` flag, the created fabric network (if any) and the
rollback deletion errors, which are logged but never propagated. -/
structure CreateNetOut where
  result : Except DockerErr String
  calls : List Call
  createdFabricVlan : Bool
  fabricNetwork : Option String
  rollbackErrs : List NapiErr
deriving Repr

/-- `createNetwork` (networks.js 572-831) after label validation: run the
pipeline; on success call back with the platform id of the created network;
on failure run the rollback (`removeFabricNetwork` if `ctx.fabricNetwork`
is set, `removeFabricVLAN` if `createdFabricVlan` is set), log any deletion
errors, and call back with the original pipeline error (`onCleanup`). -/
def createNetworkRun (vlanLabel : Option Nat) (env : CreateNetEnv) :
    CreateNetOut :=
  match runPipeline vlanLabel env with
  | (none, st) =>
      { result := .ok (networkUuidToDockerId (st.fabricNetwork.getD "")),
        calls := st.calls, createdFabricVlan := st.createdFabricVlan,
        fabricNetwork := st.fabricNetwork, rollbackErrs := [] }
  | (some err, st) =>
      let netCalls : List Call :=
        match st.fabricNetwork with
        | some uuid => [.deleteNet (st.fabricVlanId.getD 0) uuid]
        | none => []
      let netErrs : List NapiErr :=
        match st.fabricNetwork with
        | some _ =>
          match env.deleteFabricNetwork with
          | .error e => [e]
          | .ok _ => []
        | none => []
      let vlanCalls : List Call :=
        if st.createdFabricVlan then [.deleteVlan (st.fabricVlanId.getD 0)]
        else []
      let vlanErrs : List NapiErr :=
        if st.createdFabricVlan then
          match env.deleteFabricVLAN with
          | .error e => [e]
          | .ok _ => []
        else []
      { result := .error err,
        calls := st.calls ++ netCalls ++ vlanCalls,
        createdFabricVlan := st.createdFabricVlan,
        fabricNetwork := st.fabricNetwork,
        rollbackErrs := netErrs ++ vlanErrs }

/-! ### Structural lemmas about the pipeline -/

theorem createNetStage_createdFlag (env : CreateNetEnv) (st : PipeSt) :
    (createNetStage env st).2.createdFabricVlan = st.createdFabricVlan := by
  unfold createNetStage
  cases env.parseCidr with
  | error _ => rfl
  | ok _ =>
    cases env.createFabricNetwork with
    | error e => rfl
    | ok u => rfl

theorem createNetStage_calls_filter (env : CreateNetEnv) (st : PipeSt)
    (p : Call → Bool) (hp : ∀ v, p (.createNet v) = false) :
    (createNetStage env st).2.calls.filter p = st.calls.filter p := by
  unfold createNetStage
  cases env.parseCidr with
  | error _ => rfl
  | ok _ =>
    cases env.createFabricNetwork with
    | error e => simp [List.filter_append, List.filter_cons, hp]
    | ok u => simp [List.filter_append, List.filter_cons, hp]

theorem filter_map_createVlan (p : Call → Bool)
    (hp : ∀ v, p (.createVlan v) = false) (l : List Nat) :
    (l.map Call.createVlan).filter p = [] := by
  induction l with
  | nil => rfl
  | cons x xs ih => simp [List.filter_cons, hp, ih]

theorem runPipeline_calls_filter (vlanLabel : Option Nat) (env : CreateNetEnv)
    (p : Call → Bool)
    (hp1 : ∀ v, p (.createNet v) = false) (hp2 : ∀ v, p (.createVlan v) = false)
    (hp3 : p .listVlans = false) (hp4 : ∀ v, p (.getVlan v) = false) :
    (runPipeline vlanLabel env).2.calls.filter p = [] := by
  unfold runPipeline
  cases vlanLabel with
  | some v =>
    cases env.getFabricVLAN with
    | error e => simp [List.filter_cons, hp4]
    | ok u =>
      rw [createNetStage_calls_filter env _ p hp1]
      simp [List.filter_cons, hp4]
  | none =>
    cases env.listFabricVLANs with
    | error e => simp [List.filter_cons, hp3]
    | ok vlans =>
      by_cases hlen : 1024 ≤ vlans.length
      · simp [hlen, List.filter_cons, hp3]
      · simp only [hlen, if_false]
        rcases hA : attemptVlans env.createFabricVLAN (freeVlanIdsOf vlans)
          with ⟨r, att⟩
        cases r with
        | ok id =>
          simp only [hA]
          rw [createNetStage_calls_filter env _ p hp1]
          simp [List.filter_cons, hp3, filter_map_createVlan p hp2]
        | error e =>
          simp only [hA]
          simp [List.filter_cons, hp3, filter_map_createVlan p hp2]

theorem runPipeline_label_notCreated (v : Nat) (env : CreateNetEnv) :
    (runPipeline (some v) env).2.createdFabricVlan = false := by
  unfold runPipeline
  cases env.getFabricVLAN with
  | error e => rfl
  | ok u => rw [createNetStage_createdFlag]

theorem runPipeline_delete_irrel (vlanLabel : Option Nat) (env : CreateNetEnv)
    (d1 d2 : Except NapiErr Unit) :
    runPipeline vlanLabel
        { env with deleteFabricNetwork := d1, deleteFabricVLAN := d2 }
      = runPipeline vlanLabel env := rfl

/-! ### Claim theorems about the pipeline -/

/-- C2: on any pipeline failure of `createNetwork`, the rollback deletes the
fabric network exactly once if this pipeline created one and never otherwise,
deletes the fabric VLAN exactly once if this pipeline created it and never
otherwise (in particular a VLAN resolved from a supplied `vlan_id` label is
never deleted), and the error handed to the caller is the original pipeline
error regardless of the rollback deletions' outcomes. -/
theorem createNetwork_rollback (vlanLabel : Option Nat) (env : CreateNetEnv)
    (e : DockerErr) (d1 d2 : Except NapiErr Unit)
    (h : (createNetworkRun vlanLabel env).result = .error e) :
    ((createNetworkRun vlanLabel env).calls.filter Call.isDeleteNet).length
        = (if (createNetworkRun vlanLabel env).fabricNetwork.isSome then 1 else 0) ∧
    ((createNetworkRun vlanLabel env).calls.filter Call.isDeleteVlan).length
        = (if (createNetworkRun vlanLabel env).createdFabricVlan then 1 else 0) ∧
    (vlanLabel = none ∨
      ((createNetworkRun vlanLabel env).calls.filter Call.isDeleteVlan).length = 0) ∧
    (createNetworkRun vlanLabel
        { env with deleteFabricNetwork := d1, deleteFabricVLAN := d2 }).result
      = .error e := by
  rcases hrun : runPipeline vlanLabel env with ⟨errOpt, st⟩
  cases errOpt with
  | none =>
    simp only [createNetworkRun, hrun] at h
    exact absurd h (by simp)
  | some err =>
    have hDelNet : st.calls.filter Call.isDeleteNet = [] := by
      have := runPipeline_calls_filter vlanLabel env Call.isDeleteNet
        (fun v => rfl) (fun v => rfl) rfl (fun v => rfl)
      rwa [hrun] at this
    have hDelVlan : st.calls.filter Call.isDeleteVlan = [] := by
      have := runPipeline_calls_filter vlanLabel env Call.isDeleteVlan
        (fun v => rfl) (fun v => rfl) rfl (fun v => rfl)
      rwa [hrun] at this
    have herr : err = e := by
      simp only [createNetworkRun, hrun] at h
      simpa using h
    subst herr
    refine ⟨?_, ?_, ?_, ?_⟩
    · simp only [createNetworkRun, hrun]
      cases hfn : st.fabricNetwork with
      | none =>
        cases hcr : st.createdFabricVlan <;>
          simp [hfn, hcr, List.filter_append, hDelNet, List.filter_cons,
            Call.isDeleteNet]
      | some u =>
        cases hcr : st.createdFabricVlan <;>
          simp [hfn, hcr, List.filter_append, hDelNet, List.filter_cons,
            Call.isDeleteNet]
    · simp only [createNetworkRun, hrun]
      cases hfn : st.fabricNetwork with
      | none =>
        cases hcr : st.createdFabricVlan <;>
          simp [hfn, hcr, List.filter_append, hDelVlan, List.filter_cons,
            Call.isDeleteVlan]
      | some u =>
        cases hcr : st.createdFabricVlan <;>
          simp [hfn, hcr, List.filter_append, hDelVlan, List.filter_cons,
            Call.isDeleteVlan]
    · cases vlanLabel with
      | none => exact Or.inl rfl
      | some v =>
        refine Or.inr ?_
        have hcr : st.createdFabricVlan = false := by
          have := runPipeline_label_notCreated v env
          rwa [hrun] at this
        simp only [createNetworkRun, hrun]
        cases hfn : st.fabricNetwork with
        | none =>
          simp [hfn, hcr, List.filter_append, hDelVlan, List.filter_cons,
            Call.isDeleteVlan]
        | some u =>
          simp [hfn, hcr, List.filter_append, hDelVlan, List.filter_cons,
            Call.isDeleteVlan]
    · have hrun' : runPipeline vlanLabel
          { env with deleteFabricNetwork := d1, deleteFabricVLAN := d2 }
            = (some err, st) := by
        rw [runPipeline_delete_irrel]; exact hrun
      simp [createNetworkRun, hrun']

/-- Witness for C2: a pipeline that creates VLAN 0 and then fails to create
the fabric network, in an environment where both rollback deletions also
fail; the caller still receives the original network-creation error. -/
def failEnv : CreateNetEnv :=
  { getFabricVLAN := .ok (), listFabricVLANs := .ok [],
    createFabricVLAN := fun _ => .ok (), parseCidr := .ok (),
    createFabricNetwork := .error ⟨500, "boom"⟩,
    deleteFabricNetwork := .error ⟨500, "net rollback failed"⟩,
    deleteFabricVLAN := .error ⟨500, "vlan rollback failed"⟩ }

theorem createNetwork_rollback_witness :
    (createNetworkRun none failEnv).result
        = .error (.napiWrap "Unable to create network" ⟨500, "boom"⟩) ∧
    (((createNetworkRun none failEnv).calls.filter Call.isDeleteNet).length
        = (if (createNetworkRun none failEnv).fabricNetwork.isSome then 1 else 0) ∧
     ((createNetworkRun none failEnv).calls.filter Call.isDeleteVlan).length
        = (if (createNetworkRun none failEnv).createdFabricVlan then 1 else 0) ∧
     (none = (none : Option Nat) ∨
       ((createNetworkRun none failEnv).calls.filter Call.isDeleteVlan).length = 0) ∧
     (createNetworkRun none
        { failEnv with deleteFabricNetwork := .ok (), deleteFabricVLAN := .ok () }).result
      = .error (.napiWrap "Unable to create network" ⟨500, "boom"⟩)) :=
  ⟨rfl, createNetwork_rollback none failEnv
    (.napiWrap "Unable to create network" ⟨500, "boom"⟩) (.ok ()) (.ok ()) rfl⟩

/-- C6: the VLAN-creation retry loop attempts candidates strictly in list
(ascending) order: if candidate 4 fails with the "VLAN ID is already in use"
conflict and candidate 5 succeeds, the loop settles on VLAN id 5 having
called creation exactly for `[4, 5]` (no candidate after 5 is attempted); a
non-conflict creation error aborts immediately with the wrapped error after
its single attempt; a conflict error merely advances to the remaining
candidates. -/
theorem vlanRetry_conflict (create : Nat → Except NapiErr Unit)
    (rest rest2 rest3 : List Nat) (id2 id3 : Nat) (e4 e2 e3 : NapiErr)
    (h4 : create 4 = .error e4) (h4m : e4.message = "VLAN ID is already in use")
    (h5 : create 5 = .ok ())
    (h2 : create id2 = .error e2) (h2m : e2.message ≠ "VLAN ID is already in use")
    (h3 : create id3 = .error e3) (h3m : e3.message = "VLAN ID is already in use") :
    attemptVlans create (4 :: 5 :: rest) = (.ok 5, [4, 5]) ∧
    attemptVlans create (id2 :: rest2)
      = (.error (.napiWrap "Unable to create fabric vlan" e2), [id2]) ∧
    attemptVlans create (id3 :: rest3)
      = ((attemptVlans create rest3).1, id3 :: (attemptVlans create rest3).2) := by
  refine ⟨?_, ?_, ?_⟩
  · simp [attemptVlans, h4, h4m, h5]
  · simp [attemptVlans, h2, h2m]
  · simp [attemptVlans, h3, h3m]

/-- Witness oracle for C6: candidate 4 hits the conflict, candidate 6 hits a
non-conflict error, everything else succeeds. -/
def retryOracle : Nat → Except NapiErr Unit := fun id =>
  if id = 4 then .error ⟨422, "VLAN ID is already in use"⟩
  else if id = 6 then .error ⟨500, "internal error"⟩
  else .ok ()

theorem vlanRetry_conflict_witness :
    retryOracle 4 = .error ⟨422, "VLAN ID is already in use"⟩ ∧
    (⟨422, "VLAN ID is already in use"⟩ : NapiErr).message
      = "VLAN ID is already in use" ∧
    retryOracle 5 = .ok () ∧
    retryOracle 6 = .error ⟨500, "internal error"⟩ ∧
    (⟨500, "internal error"⟩ : NapiErr).message ≠ "VLAN ID is already in use" ∧
    (attemptVlans retryOracle (4 :: 5 :: [6]) = (.ok 5, [4, 5]) ∧
     attemptVlans retryOracle (6 :: [7])
       = (.error (.napiWrap "Unable to create fabric vlan" ⟨500, "internal error"⟩), [6]) ∧
     attemptVlans retryOracle (4 :: [5])
       = ((attemptVlans retryOracle [5]).1, 4 :: (attemptVlans retryOracle [5]).2)) :=
  ⟨rfl, rfl, rfl, rfl, by decide,
    vlanRetry_conflict retryOracle [6] [7] [5] 6 4
      ⟨422, "VLAN ID is already in use"⟩ ⟨500, "internal error"⟩
      ⟨422, "VLAN ID is already in use"⟩
      rfl rfl rfl rfl (by decide) rfl rfl⟩

/-- C8: when no `vlan_id` label was supplied and the account already has
1024 (or more) fabric VLANs, `createNetwork` fails with the
`DockerError('No free vlan ids')` exhaustion error and never issues a
`createFabricVLAN` call. -/
theorem createNetwork_exhaustion (env : CreateNetEnv) (vlans : List Nat)
    (h1 : env.listFabricVLANs = .ok vlans) (h2 : 1024 ≤ vlans.length) :
    (createNetworkRun none env).result = .error (.docker "No free vlan ids") ∧
    (createNetworkRun none env).calls.filter Call.isCreateVlan = [] := by
  have hrun : runPipeline none env
      = (some (.docker "No free vlan ids"), { calls := [.listVlans] }) := by
    unfold runPipeline
    rw [h1]
    simp [h2]
  constructor
  · simp [createNetworkRun, hrun]
  · simp [createNetworkRun, hrun, List.filter_cons, Call.isCreateVlan]

/-- Witness environment for C8: an account holding all 1024 VLAN ids. -/
def exhaustedEnv : CreateNetEnv :=
  { getFabricVLAN := .ok (), listFabricVLANs := .ok (List.range 1024),
    createFabricVLAN := fun _ => .ok (), parseCidr := .ok (),
    createFabricNetwork := .ok "u", deleteFabricNetwork := .ok (),
    deleteFabricVLAN := .ok () }

theorem createNetwork_exhaustion_witness :
    exhaustedEnv.listFabricVLANs = .ok (List.range 1024) ∧
    1024 ≤ (List.range 1024).length ∧
    ((createNetworkRun none exhaustedEnv).result
        = .error (.docker "No free vlan ids") ∧
     (createNetworkRun none exhaustedEnv).calls.filter Call.isCreateVlan = []) :=
  ⟨rfl, by simp,
    createNetwork_exhaustion exhaustedEnv (List.range 1024) rfl (by simp)⟩

/-! ## The `byDockerId` strategy gate of `findNetworkOrPoolByNameOrId`
(networks.js 456-495)

Under the double-uuid convention a full platform id is `uuid-without-dashes`
concatenated with itself (64 characters).  `byDockerId` locally rejects
"impossible" partial ids before issuing a prefix search. -/

/-- Modelled from the spec: `utils.shortNetworkIdToUuidPrefix` is not part
of this repository slice; per spec §4.1 (`fromPlatformId`), it re-inserts
the UUID dashes into (a prefix of) the first half of the platform id, i.e.
into its first 32 characters, with dashes after positions 8, 12, 16 and 20
as far as the available length allows. -/
def shortIdToUuidPref (name : List Char) : List Char :=
  let h := name.take 32
  h.take 8
    ++ (if 8 < h.length then '-' :: (h.drop 8).take 4 else [])
    ++ (if 12 < h.length then '-' :: (h.drop 12).take 4 else [])
    ++ (if 16 < h.length then '-' :: (h.drop 16).take 4 else [])
    ++ (if 20 < h.length then '-' :: (h.drop 20).take 12 else [])

/-- Modelled from the spec: `utils.ldapEscape` (the NAPI-367 workaround) is
not part of this repository slice; it escapes characters meaningful to the
remote filter syntax, and is the identity on the hexadecimal-and-dash
strings produced here. -/
def ldapEscape (s : List Char) : List Char := s

/-- What the `byDockerId` strategy decides locally, before any remote call:
skip with an empty result (`setImmediate(cb, null, [])`) or issue a
'*'-suffixed uuid prefix search through `getNetworksOrPools`. -/
inductive IdSearchAction
  | skip
  | search (uuidStar : List Char)
deriving DecidableEq, Repr

/-- The local gate of `byDockerId` (networks.js 456-495).  For names of
length ≥ 32 the characters from index 32 on (`name.substr(32)`) must be
strictly shorter than, and a prefix of, the first **31** characters
(`firstHalf = name.substr(0, 31)` — 31, not 32), else the id is deemed
impossible and the strategy skips locally; otherwise the name is decoded to
a uuid prefix and the '*'-suffixed prefix search is issued. -/
def byDockerId (name : List Char) : IdSearchAction :=
  if 32 ≤ name.length then
    let secondHalf := name.drop 32
    let firstHalf := name.take 31
    if firstHalf.length ≤ secondHalf.length ∨
        secondHalf ≠ firstHalf.take secondHalf.length then
      .skip
    else .search (ldapEscape (shortIdToUuidPref name) ++ ['*'])
  else .search (ldapEscape (shortIdToUuidPref name) ++ ['*'])

/-- The validity condition of claim C5, stated from the spec's words: the
characters from index 32 onward form a proper prefix of the characters
before index 32 (so the string is a truncation of some full doubled id). -/
def specValidIdPref (name : List Char) : Prop :=
  name.drop 32 <+: name.take 32 ∧ name.drop 32 ≠ name.take 32

/-- C5 (failing input): the 63-character identifier `aaa…a` is a valid
proper prefix of the full 64-character platform id `a^64` — its characters
from index 32 on (31 a's) are a proper prefix of its first 32 characters —
yet `byDockerId` skips it locally, because the code compares against
`name.substr(0, 31)` (31 characters instead of the 32-character first half)
and requires the second half to be strictly shorter than that.  A
62-character identifier of the same shape is handled correctly, isolating
the off-by-one at length 63. -/
theorem byDockerId_len63_skipped :
    byDockerId (List.replicate 63 'a') = .skip ∧
    (List.replicate 63 'a').length < 64 ∧
    specValidIdPref (List.replicate 63 'a') ∧
    byDockerId (List.replicate 62 'a') ≠ .skip := by
  refine ⟨by decide, by decide, ?_, by decide⟩
  constructor
  · decide
  · decide

/-! ## The search chain `getNetworksOrPools` (networks.js 280-396)

A `vasync.tryEach` over five functions: list networks with the filter, the
client-side uuid-prefix fallback over all networks, list network pools with
the filter, the same fallback over pools, and a terminal function returning
an empty list.  `tryEach` runs them in order and stops at the first whose
callback reports no error; each function converts a "real" (non-404) remote
error into a *successful* callback carrying `{err}`, so such an error stops
the chain and is handed to the caller. -/

/-- A NAPI network or network-pool record as seen by the search logic: only
the uuid takes part in any decision. -/
structure NetRec where
  uuid : List Char
deriving DecidableEq, Repr

/-- Outcome of one remote `listNetworks`/`listNetworkPools` call: the
callback's `(err, res)` pair under the node convention (a result list on
success, an error with a status code on failure). -/
inductive RemoteOut
  | ok (l : List NetRec)
  | err (statusCode : Nat)
deriving DecidableEq, Repr

/-- The search filter: exactly one of `params.name` / `params.uuid` is set
(`assert.ok(params.name || params.uuid)`). -/
inductive SearchFilter
  | byName (s : List Char)
  | byUuid (s : List Char)
deriving DecidableEq, Repr

/-- Oracle outcomes for the four remote calls `getNetworksOrPools` can
issue: the filtered and unfiltered (fallback) network listings, and the
filtered and unfiltered pool listings. -/
structure SearchEnv where
  listNetsFilt : RemoteOut
  listNetsAll : RemoteOut
  listPoolsFilt : RemoteOut
  listPoolsAll : RemoteOut
deriving DecidableEq, Repr

/-- What `getNetworksOrPools` hands to its caller: `callback(res.err,
res.res)`.  `crash` models the unhandled JavaScript `TypeError` thrown in a
fallback function when the unfiltered listing reports a 404 error (then
`res` is `undefined` and `res.filter(...)` throws). -/
inductive GNPResult
  | ok (l : List NetRec)
  | error (statusCode : Nat)
  | crash
deriving DecidableEq, Repr

/-- One direct strategy (`listNets` / `listNetPools`, networks.js 289-301
and 339-351): an empty result list fails the `tryEach` step (continue), a
non-404 error stops the chain carrying the error, a 404 error continues,
and a non-empty list stops the chain carrying the matches. -/
def directStep (out : RemoteOut) : Option GNPResult :=
  match out with
  | .ok l => if l.length = 0 then none else some (.ok l)
  | .err code => if code ≠ 404 then some (.error code) else none

/-- One fallback strategy (`listFiltNets` / `listFiltNetPools`, networks.js
302-338 and 352-388): skipped for name filters and for uuid filters without
a trailing `'*'`; otherwise list everything and client-side-filter by
string-prefix comparison on the uuid, continuing when nothing matches.  An
unfiltered listing that itself reports 404 reaches `res.filter` with `res`
undefined and crashes. -/
def fallbackStep (filt : SearchFilter) (out : RemoteOut) : Option GNPResult :=
  match filt with
  | .byName _ => none
  | .byUuid uuid =>
    if uuid.getLast? ≠ some '*' then none
    else
      let uuidPref := uuid.dropLast
      let sz := uuidPref.length
      match out with
      | .ok l =>
        if l.length = 0 then none
        else
          let filtered := l.filter (fun p => uuidPref = p.uuid.take sz)
          if 0 < filtered.length then some (.ok filtered) else none
      | .err code => if code ≠ 404 then some (.error code) else some .crash

/-- `getNetworksOrPools` (networks.js 280-396): `vasync.tryEach` over the
four strategies and the terminal empty-result function. -/
def getNetworksOrPools (filt : SearchFilter) (env : SearchEnv) : GNPResult :=
  match directStep env.listNetsFilt with
  | some r => r
  | none =>
    match fallbackStep filt env.listNetsAll with
    | some r => r
    | none =>
      match directStep env.listPoolsFilt with
      | some r => r
      | none =>
        match fallbackStep filt env.listPoolsAll with
        | some r => r
        | none => .ok []

/-! ### The amended search contract, stated from the spec's words -/

/-- Classification of a strategy per the amended claim: it either degraded
to "not found" (404, empty list, no client-side prefix match, or an
inapplicable fallback), obtained a non-empty match list, or failed with a
real (non-404) error. -/
inductive StratClass
  | notFound
  | matches (l : List NetRec)
  | realErr (statusCode : Nat)
deriving DecidableEq, Repr

/-- Spec-side classification of a direct strategy's remote outcome. -/
def classifyDirect (out : RemoteOut) : StratClass :=
  match out with
  | .ok [] => .notFound
  | .ok l => .matches l
  | .err code => if code = 404 then .notFound else .realErr code

/-- Spec-side classification of a fallback strategy: applicable only to
'*'-terminated uuid filters, matching by client-side prefix filtering. -/
def classifyFallback (filt : SearchFilter) (out : RemoteOut) : StratClass :=
  match filt with
  | .byName _ => .notFound
  | .byUuid uuid =>
    if uuid.getLast? ≠ some '*' then .notFound
    else
      match out with
      | .ok l =>
        let uuidPref := uuid.dropLast
        let filtered := l.filter (fun p => uuidPref = p.uuid.take uuidPref.length)
        if 0 < filtered.length then .matches filtered else .notFound
      | .err code => if code = 404 then .notFound else .realErr code

/-- The first decisive strategy wins; if every strategy degraded to "not
found", the result is the empty list with no error. -/
def firstDecisive : List StratClass → GNPResult
  | [] => .ok []
  | .notFound :: rest => firstDecisive rest
  | .matches l :: _ => .ok l
  | .realErr code :: _ => .error code

/-- The amended contract: the outcome of the first strategy, in the fixed
order, that either obtained a non-empty match list or failed with a real
error; empty-list success when all four degraded to "not found". -/
def searchSpecified (filt : SearchFilter) (env : SearchEnv) : GNPResult :=
  firstDecisive
    [classifyDirect env.listNetsFilt, classifyFallback filt env.listNetsAll,
     classifyDirect env.listPoolsFilt, classifyFallback filt env.listPoolsAll]

/-- The proviso of the amended claim: neither unfiltered fallback listing
itself reports a 404 error (the code crashes on that case instead of
degrading; unfiltered listings do not 404 in practice). -/
def noFallback404 (env : SearchEnv) : Prop :=
  env.listNetsAll ≠ .err 404 ∧ env.listPoolsAll ≠ .err 404

/-- Map a spec-side classification to the `tryEach` step outcome it
dictates: not-found continues, matches and real errors stop the chain. -/
def StratClass.toStep : StratClass → Option GNPResult
  | .notFound => none
  | .matches l => some (.ok l)
  | .realErr code => some (.error code)

theorem directStep_eq (out : RemoteOut) :
    directStep out = (classifyDirect out).toStep := by
  cases out with
  | ok l =>
    cases l with
    | nil => rfl
    | cons x xs => rfl
  | err code =>
    by_cases hc : code = 404 <;>
      simp [directStep, classifyDirect, StratClass.toStep, hc]

theorem fallbackStep_eq (filt : SearchFilter) (out : RemoteOut)
    (hout : out ≠ .err 404) :
    fallbackStep filt out = (classifyFallback filt out).toStep := by
  cases filt with
  | byName s => rfl
  | byUuid uuid =>
    by_cases hstar : uuid.getLast? = some '*'
    · cases out with
      | ok l =>
        cases l with
        | nil => simp [fallbackStep, classifyFallback, StratClass.toStep, hstar]
        | cons x xs =>
          simp only [fallbackStep, classifyFallback, hstar, ne_eq,
            not_true_eq_false, if_false]
          split_ifs with h1 h2 <;> simp_all [StratClass.toStep]
      | err code =>
        have hc : ¬ (code = 404) := fun hc => hout (by rw [hc])
        simp [fallbackStep, classifyFallback, StratClass.toStep, hstar, hc]
    · simp [fallbackStep, classifyFallback, StratClass.toStep, hstar]

/-- C9 (counterexample): with a name filter, a real (non-404) error from the
first strategy (networks direct) and a single-element match list available
from the third strategy (pools direct), `getNetworksOrPools` returns the
first strategy's error even though a later strategy obtained a non-empty
match list and not all strategies failed — refuting the claim that the
first non-empty match list wins and that an error is returned only when all
strategies failed with real errors. -/
theorem search_err_overrides_match :
    getNetworksOrPools (.byName ['w', 'e', 'b'])
        ⟨.err 500, .ok [], .ok [⟨['p']⟩], .ok []⟩ = .error 500 ∧
    getNetworksOrPools (.byName ['w', 'e', 'b'])
        ⟨.err 500, .ok [], .ok [⟨['p']⟩], .ok []⟩ ≠ .ok [⟨['p']⟩] := by
  exact ⟨rfl, by decide⟩

/-- C9 (amended): provided neither unfiltered fallback listing itself
reports a 404 (that case is an unhandled crash in the code),
`getNetworksOrPools` returns the outcome of the first strategy, in the
fixed order, that either obtained a non-empty match list (those matches,
without override) or failed with a real non-404 error (that error); when
every strategy degraded to "not found" (404, empty list, no client-side
prefix match, or an inapplicable fallback) it returns the empty array with
no error — never null. -/
theorem search_refines (filt : SearchFilter) (env : SearchEnv)
    (h : noFallback404 env) :
    getNetworksOrPools filt env = searchSpecified filt env := by
  obtain ⟨h1, h2⟩ := h
  unfold getNetworksOrPools searchSpecified
  rw [directStep_eq env.listNetsFilt, fallbackStep_eq filt env.listNetsAll h1,
    directStep_eq env.listPoolsFilt, fallbackStep_eq filt env.listPoolsAll h2]
  cases classifyDirect env.listNetsFilt <;>
    cases classifyFallback filt env.listNetsAll <;>
      cases classifyDirect env.listPoolsFilt <;>
        cases classifyFallback filt env.listPoolsAll <;> rfl

/-- Witness for C9's amended theorem at a concrete filter and environment. -/
theorem search_refines_witness :
    noFallback404 ⟨.err 500, .ok [], .ok [⟨['p']⟩], .ok []⟩ ∧
    getNetworksOrPools (.byUuid ['a', 'b', '*'])
        ⟨.err 500, .ok [], .ok [⟨['p']⟩], .ok []⟩
      = searchSpecified (.byUuid ['a', 'b', '*'])
          ⟨.err 500, .ok [], .ok [⟨['p']⟩], .ok []⟩ :=
  ⟨⟨by decide, by decide⟩,
    search_refines (.byUuid ['a', 'b', '*']) _ ⟨by decide, by decide⟩⟩

/-! ## The preference-order reduction of `findNetworkOrPoolByNameOrId`
(networks.js 497-553)

The three strategies (exact id, exact name, partial id) run under
`vasync.parallel`; `results.operations` is ordered as the `funcs` array
regardless of completion order, and a `reduce` picks the outcome of the
most-preferred strategy that produced an error or a non-empty result. -/

/-- Errors flowing through the resolver: a remote search error (identified
by its status code) plus the resolver's own
`AmbiguousDockerNetworkIdPrefixError(name)` and
`NetworkNotFoundError(name)`. -/
inductive ResolveErr
  | remote (statusCode : Nat)
  | ambiguous (name : List Char)
  | notFound (name : List Char)
deriving DecidableEq, Repr

/-- The `(op.err, op.result)` pair of one strategy in
`results.operations`. -/
inductive OpOutcome
  | opErr (e : ResolveErr)
  | opOk (l : List NetRec)
deriving DecidableEq, Repr

/-- The accumulator of the `reduce` over `results.operations`. -/
structure BestMatch where
  err : Option ResolveErr
  result : Option NetRec
deriving DecidableEq, Repr

/-- One `reduce` step (networks.js 503-525): once an error or a result has
been chosen the accumulator is frozen; otherwise an op error is taken, a
single-match result is taken (`op.result[0]`), two or more matches produce
the ambiguous-id error carrying the original identifier, and zero matches
leave the accumulator untouched. -/
def reduceStep (name : List Char) (acc : BestMatch) (op : OpOutcome) :
    BestMatch :=
  if acc.err.isSome ∨ acc.result.isSome then acc
  else
    match op with
    | .opErr e => { acc with err := some e }
    | .opOk [] => acc
    | .opOk [r] => { acc with result := some r }
    | .opOk (_ :: _ :: _) => { acc with err := some (.ambiguous name) }

def reduceOps (name : List Char) (ops : List OpOutcome) : BestMatch :=
  ops.foldl (reduceStep name) { err := none, result := none }

/-- The dispatch after the reduce (networks.js 527-553): a chosen error is
logged (`log.error`) and surfaced through the callback; with no error and
no result the `NetworkNotFoundError` is returned; otherwise the chosen
result is returned, logging (`log.warn`, non-critical) the errors of the
non-selected strategies if there were any.  The second component collects
the errors the resolver logs. -/
def resolveDispatch (name : List Char) (ops : List OpOutcome) :
    Except ResolveErr NetRec × List ResolveErr :=
  let best := reduceOps name ops
  match best.err with
  | some e => (.error e, [e])
  | none =>
    match best.result with
    | some r =>
        (.ok r, ops.filterMap (fun op =>
          match op with
          | .opErr e => some e
          | .opOk _ => none))
    | none => (.error (.notFound name), [])

theorem foldl_reduceStep_frozen (name : List Char) (acc : BestMatch)
    (h : acc.err.isSome ∨ acc.result.isSome) :
    ∀ ops : List OpOutcome, ops.foldl (reduceStep name) acc = acc := by
  intro ops
  induction ops with
  | nil => rfl
  | cons op ops ih =>
    rw [List.foldl_cons]
    have hstep : reduceStep name acc op = acc := by
      unfold reduceStep
      rw [if_pos h]
    rw [hstep]
    exact ih

/-- C1 (counterexample): with strategy outcomes
`(err 500, –), (nil, [u]), (nil, [])` the resolver surfaces strategy 1's
transport error — it does *not* return strategy 2's single match — and logs
that error; the reduce takes the first strategy that produced an error *or*
a non-empty result, so a higher-preference error is the chosen outcome. -/
theorem resolver_err1_surfaced :
    (resolveDispatch ['x']
        [.opErr (.remote 500), .opOk [⟨['u']⟩], .opOk []]).1
      = .error (.remote 500) ∧
    (Except.error (ResolveErr.remote 500) : Except ResolveErr NetRec)
      ≠ .ok ⟨['u']⟩ ∧
    (resolveDispatch ['x']
        [.opErr (.remote 500), .opOk [⟨['u']⟩], .opOk []]).2
      = [.remote 500] :=
  ⟨rfl, by simp, rfl⟩

/-- C1 (amended): whenever the exact-id strategy (strategy 1) completes
with a transport error, the resolver surfaces that error as the outcome —
regardless of any lower-preference strategy's results, including a clean
single match from the exact-name strategy — and logs it (`log.error`). -/
theorem resolver_first_error_wins (name : List Char) (e : ResolveErr)
    (rest : List OpOutcome) :
    (resolveDispatch name (.opErr e :: rest)).1 = .error e ∧
    (resolveDispatch name (.opErr e :: rest)).2 = [e] := by
  have hred : reduceOps name (.opErr e :: rest)
      = { err := some e, result := none } := by
    unfold reduceOps
    rw [List.foldl_cons]
    have h1 : reduceStep name { err := none, result := none } (.opErr e)
        = { err := some e, result := none } := rfl
    rw [h1]
    exact foldl_reduceStep_frozen name _ (by simp) rest
  unfold resolveDispatch
  rw [hred]
  exact ⟨rfl, rfl⟩

/-- C7: if the exact-id strategy (strategy 1) returns two or more matches,
the resolver fails with the ambiguous-identifier error carrying the
original identifier, even when the exact-name strategy (strategy 2)
returned exactly one match. -/
theorem resolver_ambiguous_id (name : List Char) (x y : NetRec)
    (more : List NetRec) (r : NetRec) (rest : List OpOutcome) :
    (resolveDispatch name
        (.opOk (x :: y :: more) :: .opOk [r] :: rest)).1
      = .error (.ambiguous name) := by
  have hred : reduceOps name (.opOk (x :: y :: more) :: .opOk [r] :: rest)
      = { err := some (.ambiguous name), result := none } := by
    unfold reduceOps
    rw [List.foldl_cons]
    have h1 : reduceStep name { err := none, result := none }
        (.opOk (x :: y :: more))
        = { err := some (.ambiguous name), result := none } := rfl
    rw [h1]
    exact foldl_reduceStep_frozen name _ (by simp) (.opOk [r] :: rest)
  unfold resolveDispatch
  rw [hred]

end SdcNetworks
